import Mathlib

/-!
Verification of the paper tier classifier and the metrics delta tracker of
the morning-report repository.

The embedding is shallow: Python strings are lists of characters (`PyStr`),
Python dicts are association lists looked up by first match (dict keys are
unique, so first match is the only match), JSON numbers are rationals, and
fallible lookups return `Option`.  `str.lower` is modelled by the ASCII
case mapping, which is exact for the keyword and date strings the program
handles.
-/

attribute [local semireducible] Rat.sub Rat.add Rat.mul Rat.inv

/-- Python `str` as a list of characters. -/
abbrev PyStr := List Char

/-- ASCII lower-casing of one character, as `str.lower` acts on ASCII. -/
def lowerChar (c : Char) : Char :=
  if 65 ≤ c.toNat ∧ c.toNat ≤ 90 then Char.ofNat (c.toNat + 32) else c

/-- `s.lower()` on an ASCII string: character-wise lower-casing. -/
def pyLower (s : PyStr) : PyStr := s.map lowerChar

/-- Whether `needle` is an initial segment of `hay`. -/
def startsWith : PyStr → PyStr → Bool
  | [], _ => true
  | _ :: _, [] => false
  | a :: as, b :: bs => a == b && startsWith as bs

/-- Python `needle in hay` on strings: contiguous-substring membership. -/
def containsSub (needle : PyStr) : PyStr → Bool
  | [] => needle.isEmpty
  | c :: rest => startsWith needle (c :: rest) || containsSub needle rest

/-- The record returned by `classify_paper`: the dict with keys
`tier`, `reason`, `matched_keywords`. -/
structure TierResult where
  tier : Option Nat
  reason : PyStr
  matched_keywords : List PyStr
deriving DecidableEq, Repr

/-- The tier-1 guard `citing_bibcodes and paper_bibcode and paper_bibcode in
citing_bibcodes`: the citing set is truthy (non-empty; `None` is modelled as
the empty list), the bibcode is truthy (present and non-empty), and the
bibcode is a member of the citing set. -/
def tier1Hit (citing_bibcodes : List PyStr) : Option PyStr → Bool
  | none => false
  | some b => !citing_bibcodes.isEmpty && !b.isEmpty && decide (b ∈ citing_bibcodes)

/-- The search text `(title + " " + abstract).lower()`. -/
def searchText (title abstract : PyStr) : PyStr :=
  pyLower (title ++ [' '] ++ abstract)

/-- `classify_paper` from `morning_report/arxiv/classifier.py`. -/
def classify_paper (title abstract : PyStr)
    (tier2_keywords tier3_keywords : List PyStr)
    (citing_bibcodes : List PyStr) (paper_bibcode : Option PyStr) : TierResult :=
  if tier1Hit citing_bibcodes paper_bibcode then
    { tier := some 1, reason := "Cites your work".data, matched_keywords := [] }
  else
    let text := searchText title abstract
    let matched_t2 := tier2_keywords.filter (fun kw => containsSub (pyLower kw) text)
    if matched_t2 ≠ [] then
      { tier := some 2, reason := "Core research topic".data, matched_keywords := matched_t2 }
    else
      let matched_t3 := tier3_keywords.filter (fun kw => containsSub (pyLower kw) text)
      if matched_t3 ≠ [] then
        { tier := some 3, reason := "COOL project topic".data, matched_keywords := matched_t3 }
      else
        { tier := none, reason := "No match".data, matched_keywords := [] }

/-- A value stored in a paper dict: a string, the tier field, or the
matched-keyword list. -/
inductive PVal where
  | s (v : PyStr)
  | tierV (v : Option Nat)
  | kws (v : List PyStr)
deriving DecidableEq, Repr

/-- A paper dict: an association list with unique keys, looked up by first
match. -/
abbrev Paper := List (String × PVal)

/-- First-defined-wins choice between two optional values: the semantics
of a dict merge for one key. -/
def dictOverride {β : Type} (a b : Option β) : Option β :=
  match a with
  | some v => some v
  | none => b

/-- Association-list lookup: the value stored under a key, if any.
On unique keys this is exactly Python dict indexing. -/
def alget {κ β : Type} [DecidableEq κ] : List (κ × β) → κ → Option β
  | [], _ => none
  | (k, v) :: rest, q => if k = q then some v else alget rest q

/-- `paper.get(k, "")`: the string stored under `k`, or `""` when the key is
missing. -/
def getStrD (paper : Paper) (k : String) : PyStr :=
  match alget paper k with
  | some (.s v) => v
  | _ => []

/-- `paper.get(k)` for a string field: `None` when the key is missing. -/
def getStrOpt (paper : Paper) (k : String) : Option PyStr :=
  match alget paper k with
  | some (.s v) => some v
  | _ => none

/-- The entries of the dict returned by `classify_paper`. -/
def resultEntries (r : TierResult) : Paper :=
  [("tier", .tierV r.tier), ("reason", .s r.reason), ("matched_keywords", .kws r.matched_keywords)]

/-- `{**paper, **result}`: the classification entries are placed in front so
that first-match lookup makes them win on key collision. -/
def enrich (paper : Paper) (r : TierResult) : Paper :=
  resultEntries r ++ paper

/-- Append `p` to the bucket stored under key `t` (`tiers[t].append(...)`). -/
def appendAt (tiers : List (Nat × List Paper)) (t : Nat) (p : Paper) :
    List (Nat × List Paper) :=
  tiers.map (fun kv => if kv.1 = t then (kv.1, kv.2 ++ [p]) else kv)

/-- One classification of the batch loop: `classify_paper` applied to a
paper's own fields, with missing title/abstract defaulted to `""`. -/
def classifyOf (tier2_keywords tier3_keywords : List PyStr)
    (citing_bibcodes : List PyStr) (paper : Paper) : TierResult :=
  classify_paper (getStrD paper "title") (getStrD paper "abstract")
    tier2_keywords tier3_keywords citing_bibcodes (getStrOpt paper "bibcode")

/-- One iteration of the `classify_papers` loop: skip the paper when
`result["tier"]` is falsy (`None` or `0`), otherwise append the enriched
paper to its tier bucket. -/
def classifyStep (tier2_keywords tier3_keywords : List PyStr)
    (citing_bibcodes : List PyStr) (tiers : List (Nat × List Paper))
    (paper : Paper) : List (Nat × List Paper) :=
  let r := classifyOf tier2_keywords tier3_keywords citing_bibcodes paper
  match r.tier with
  | none => tiers
  | some t => if t = 0 then tiers else appendAt tiers t (enrich paper r)

/-- `classify_papers` from `morning_report/arxiv/classifier.py`: start from
`{1: [], 2: [], 3: []}` and fold the loop body over the papers. -/
def classify_papers (papers : List Paper)
    (tier2_keywords tier3_keywords : List PyStr)
    (citing_bibcodes : List PyStr) : List (Nat × List Paper) :=
  papers.foldl (classifyStep tier2_keywords tier3_keywords citing_bibcodes)
    [(1, []), (2, []), (3, [])]

/-- The bucket a tier collects: the enriched papers whose classification is
exactly `some t`, in input order. -/
def bucketFor (tier2_keywords tier3_keywords : List PyStr)
    (citing_bibcodes : List PyStr) (t : Nat) (papers : List Paper) : List Paper :=
  papers.filterMap (fun p =>
    let r := classifyOf tier2_keywords tier3_keywords citing_bibcodes p
    if r.tier = some t then some (enrich p r) else none)

/-- A metrics snapshot: the three sections read by `_compute_deltas`, each a
dict from key to JSON number (modelled as a rational).  A section missing
from the snapshot dict behaves exactly like the `{}` default of
`current.get(section, {})`, so it is modelled as the empty list. -/
structure Snapshot where
  indicators : List (String × ℚ)
  citationStats : List (String × ℚ)
  basicStats : List (String × ℚ)
deriving DecidableEq, Repr

/-- The metrics history: a dict from date string to snapshot. -/
abbrev History := List (PyStr × Snapshot)

/-- One `{current, previous, delta}` record of the delta report. -/
structure NumDelta where
  current : ℚ
  previous : ℚ
  delta : ℚ
deriving DecidableEq, Repr

/-- The dict returned by `_compute_deltas`.  A key absent from the Python
dict is the empty list (for the section maps) or `none`. -/
structure MetricsDelta where
  compared_to : Option PyStr
  indicators : List (String × NumDelta)
  citations : List (String × NumDelta)
  papers : Option NumDelta
deriving DecidableEq, Repr

/-- The all-empty delta `{}`. -/
def emptyDelta : MetricsDelta :=
  { compared_to := none, indicators := [], citations := [], papers := none }

/-- Round a rational to the nearest integer, ties to even, as Python
`round` rounds the exact value. -/
def roundHalfEven (q : ℚ) : ℤ :=
  let f := q.floor
  let r := q - (f : ℚ)
  if Rat.blt r (1 / 2) then f
  else if Rat.blt (1 / 2) r then f + 1
  else if f % 2 = 0 then f else f + 1

/-- `round(q, 2)`: round to two decimal places. -/
def round2 (q : ℚ) : ℚ := (roundHalfEven (q * 100) : ℚ) / 100

/-- The fixed indicator keys iterated by `_compute_deltas`. -/
def indKeyList : List String := ["h", "g", "m", "i10", "i100", "tori", "riq", "read10"]

/-- The fixed citation-stat keys iterated by `_compute_deltas`. -/
def citeKeyList : List String := ["total number of citations", "number of citing papers"]

/-- Loop body for one indicator key: when the key holds a number in both
snapshots and the difference is non-zero (`if diff and diff != 0`, which on
numbers is exactly `diff != 0`), report current, previous and the rounded
difference. -/
def indEntry (curr_ind prev_ind : List (String × ℚ)) (k : String) :
    Option (String × NumDelta) :=
  match alget curr_ind k, alget prev_ind k with
  | some c, some p =>
      let diff := c - p
      if diff ≠ 0 then some (k, { current := c, previous := p, delta := round2 diff })
      else none
  | _, _ => none

/-- Loop body for one citation-stat key: integer counts, no rounding. -/
def citeEntry (curr_cite prev_cite : List (String × ℚ)) (k : String) :
    Option (String × NumDelta) :=
  match alget curr_cite k, alget prev_cite k with
  | some c, some p =>
      let diff := c - p
      if diff ≠ 0 then some (k, { current := c, previous := p, delta := diff })
      else none
  | _, _ => none

/-- The `for key in (...)` accumulation: entries are appended in key order,
as insertion into the Python result dict. -/
def accumEntries {β : Type} (step : String → Option β) (keys : List String) :
    List β :=
  keys.foldl (fun acc k =>
    match step k with
    | some e => acc ++ [e]
    | none => acc) []

/-- The section comparisons of `_compute_deltas` once the previous snapshot
is chosen: `deltas = {"compared_to": prev_date}` followed by the three
guarded section loops (each guard `if curr and prev:` tests dict
non-emptiness). -/
def buildDelta (current previous : Snapshot) (prev_date : PyStr) : MetricsDelta :=
  let ind :=
    if !current.indicators.isEmpty && !previous.indicators.isEmpty then
      accumEntries (indEntry current.indicators previous.indicators) indKeyList
    else []
  let cite :=
    if !current.citationStats.isEmpty && !previous.citationStats.isEmpty then
      accumEntries (citeEntry current.citationStats previous.citationStats) citeKeyList
    else []
  let papers :=
    if !current.basicStats.isEmpty && !previous.basicStats.isEmpty then
      match alget current.basicStats "number of papers",
            alget previous.basicStats "number of papers" with
      | some c, some p =>
          if c ≠ p then some { current := c, previous := p, delta := c - p }
          else none
      | _, _ => none
    else none
  { compared_to := some prev_date, indicators := ind, citations := cite, papers := papers }

/-- `_compute_deltas` from `morning_report/gatherers/ads.py`, with the date
read from the clock (`datetime.now().strftime("%Y-%m-%d")`) passed in as
`today`.  `sorted(d for d in history.keys() if d != today)` is modelled by
insertion sort under the lexicographic order on strings, and `dates[-1]`
by `getLast?`.  The inner `none` branch of the lookup is unreachable: the
chosen date is a key of the history. -/
def compute_deltas (current : Snapshot) (history : History) (today : PyStr) :
    MetricsDelta :=
  if history.isEmpty then emptyDelta
  else
    let dates :=
      List.insertionSort (fun a b => a ≤ b)
        ((history.map Prod.fst).filter (fun d => d ≠ today))
    match dates.getLast? with
    | none => emptyDelta
    | some prev_date =>
        match alget history prev_date with
        | none => emptyDelta
        | some previous => buildDelta current previous prev_date

/-- The in-memory state `_compute_deltas` runs against: the current
snapshot and the history mapping, both owned by the caller. -/
abbrev DeltaState := Snapshot × History

/-- `_compute_deltas` as a state transformer over the caller's data: every
access to `current` or `history` is a monadic read of the shared state, and
the function writes nothing back. -/
def computeDeltasSt (today : PyStr) : StateM DeltaState MetricsDelta := do
  let st0 ← get
  let history := st0.2
  if history.isEmpty then pure emptyDelta
  else
    let dates :=
      List.insertionSort (fun a b => a ≤ b)
        ((history.map Prod.fst).filter (fun d => d ≠ today))
    match dates.getLast? with
    | none => pure emptyDelta
    | some prev_date =>
        match alget history prev_date with
        | none => pure emptyDelta
        | some previous => do
            let st1 ← get
            pure (buildDelta st1.1 previous prev_date)

/-- A sample snapshot used by concrete witnesses. -/
def exSnap38 : Snapshot :=
  { indicators := [("h", 38)], citationStats := [], basicStats := [] }

/-- A sample current snapshot with a changed h-index. -/
def exSnap39 : Snapshot :=
  { indicators := [("h", 39)], citationStats := [], basicStats := [] }

/-- A history with two past dates and a same-day entry, as in the P8
scenario of the spec. -/
def exHistP8 : History :=
  [("2026-02-20".data, exSnap38), ("2026-02-24".data, exSnap38),
   ("2026-02-26".data, exSnap38)]

/-- A one-entry history whose snapshot equals the current one. -/
def exHistSame : History := [("2026-02-24".data, exSnap38)]

theorem alget_append {κ β : Type} [DecidableEq κ] (l1 l2 : List (κ × β)) (k : κ) :
    alget (l1 ++ l2) k = dictOverride (alget l1 k) (alget l2 k) := by
  induction l1 with
  | nil => rfl
  | cons kv t ih =>
      cases kv with
      | mk a v =>
          by_cases hk : a = k <;> simp [alget, dictOverride, hk, ih]

theorem alget_of_mem_keys {κ β : Type} [DecidableEq κ] {l : List (κ × β)} {k : κ}
    (h : k ∈ l.map Prod.fst) : ∃ v, alget l k = some v := by
  induction l with
  | nil => simp at h
  | cons kv t ih =>
      by_cases hk : kv.1 = k
      · exact ⟨kv.2, by cases kv; simp_all [alget]⟩
      · cases kv with
        | mk a v =>
            simp only [List.map_cons, List.mem_cons] at h
            rcases h with h | h
            · exact absurd h.symm hk
            · simpa [alget, hk] using ih h

theorem appendAt_triple_left (a b c : List Paper) (p : Paper) :
    appendAt [(1, a), (2, b), (3, c)] 1 p = [(1, a ++ [p]), (2, b), (3, c)] := by
  simp [appendAt]

theorem appendAt_triple_mid (a b c : List Paper) (p : Paper) :
    appendAt [(1, a), (2, b), (3, c)] 2 p = [(1, a), (2, b ++ [p]), (3, c)] := by
  simp [appendAt]

theorem appendAt_triple_right (a b c : List Paper) (p : Paper) :
    appendAt [(1, a), (2, b), (3, c)] 3 p = [(1, a), (2, b), (3, c ++ [p])] := by
  simp [appendAt]

theorem appendAt_triple_other (a b c : List Paper) (p : Paper) {t : Nat}
    (h1 : t ≠ 1) (h2 : t ≠ 2) (h3 : t ≠ 3) :
    appendAt [(1, a), (2, b), (3, c)] t p = [(1, a), (2, b), (3, c)] := by
  have g1 : (1 : Nat) ≠ t := fun h => h1 h.symm
  have g2 : (2 : Nat) ≠ t := fun h => h2 h.symm
  have g3 : (3 : Nat) ≠ t := fun h => h3 h.symm
  simp [appendAt, g1, g2, g3]

theorem bucketFor_cons (t2 t3 cb : List PyStr) (t : Nat) (p : Paper) (ps : List Paper) :
    bucketFor t2 t3 cb t (p :: ps) =
      (if (classifyOf t2 t3 cb p).tier = some t
        then [enrich p (classifyOf t2 t3 cb p)] else []) ++ bucketFor t2 t3 cb t ps := by
  by_cases h : (classifyOf t2 t3 cb p).tier = some t <;>
    simp [bucketFor, List.filterMap_cons, h]

theorem foldl_classifyStep (t2 t3 cb : List PyStr) (ps : List Paper) :
    ∀ a b c : List Paper,
      ps.foldl (classifyStep t2 t3 cb) [(1, a), (2, b), (3, c)] =
        [(1, a ++ bucketFor t2 t3 cb 1 ps),
         (2, b ++ bucketFor t2 t3 cb 2 ps),
         (3, c ++ bucketFor t2 t3 cb 3 ps)] := by
  induction ps with
  | nil => intro a b c; simp [bucketFor]
  | cons p ps ih =>
      intro a b c
      rw [List.foldl_cons]
      have hstep :
          classifyStep t2 t3 cb [(1, a), (2, b), (3, c)] p =
            match (classifyOf t2 t3 cb p).tier with
            | none => [(1, a), (2, b), (3, c)]
            | some t =>
                if t = 0 then [(1, a), (2, b), (3, c)]
                else appendAt [(1, a), (2, b), (3, c)] t (enrich p (classifyOf t2 t3 cb p)) := rfl
      cases hr : (classifyOf t2 t3 cb p).tier with
      | none =>
          rw [hstep, hr, ih]
          simp [bucketFor_cons, hr]
      | some t =>
          by_cases h0 : t = 0
          · subst h0
            rw [hstep, hr]
            simp [ih, bucketFor_cons, hr]
          · by_cases ht1 : t = 1
            · subst ht1
              rw [hstep, hr]
              simp [appendAt_triple_left, ih, bucketFor_cons, hr, List.append_assoc]
            · by_cases ht2 : t = 2
              · subst ht2
                rw [hstep, hr]
                simp [appendAt_triple_mid, ih, bucketFor_cons, hr, List.append_assoc]
              · by_cases ht3 : t = 3
                · subst ht3
                  rw [hstep, hr]
                  simp [appendAt_triple_right, ih, bucketFor_cons, hr, List.append_assoc]
                · rw [hstep, hr]
                  simp [if_neg h0,
                    appendAt_triple_other a b c (enrich p (classifyOf t2 t3 cb p)) ht1 ht2 ht3,
                    ih, bucketFor_cons, hr, ht1, ht2, ht3]

theorem classify_papers_eq (ps : List Paper) (t2 t3 cb : List PyStr) :
    classify_papers ps t2 t3 cb =
      [(1, bucketFor t2 t3 cb 1 ps),
       (2, bucketFor t2 t3 cb 2 ps),
       (3, bucketFor t2 t3 cb 3 ps)] := by
  simpa using foldl_classifyStep t2 t3 cb ps [] [] []

theorem foldl_accum {β : Type} (step : String → Option β) (keys : List String) :
    ∀ acc : List β,
      keys.foldl (fun acc k =>
        match step k with
        | some e => acc ++ [e]
        | none => acc) acc = acc ++ keys.filterMap step := by
  induction keys with
  | nil => intro acc; simp
  | cons k keys ih =>
      intro acc
      rw [List.foldl_cons]
      cases hk : step k <;> simp [hk, ih, List.filterMap_cons]

theorem accumEntries_eq_filterMap {β : Type} (step : String → Option β)
    (keys : List String) : accumEntries step keys = keys.filterMap step := by
  simpa using foldl_accum step keys []

theorem indEntry_left_nil (prev : List (String × ℚ)) (k : String) :
    indEntry [] prev k = none := rfl

theorem indEntry_right_nil (curr : List (String × ℚ)) (k : String) :
    indEntry curr [] k = none := by
  unfold indEntry
  cases alget curr k <;> rfl

theorem citeEntry_left_nil (prev : List (String × ℚ)) (k : String) :
    citeEntry [] prev k = none := rfl

theorem citeEntry_right_nil (curr : List (String × ℚ)) (k : String) :
    citeEntry curr [] k = none := by
  unfold citeEntry
  cases alget curr k <;> rfl

/-- The emptiness guards `if curr_ind and prev_ind:` are redundant for the
indicator section: when either dict is empty no key can be present in both,
so the loop would produce nothing anyway. -/
theorem buildDelta_indicators (current previous : Snapshot) (prev_date : PyStr) :
    (buildDelta current previous prev_date).indicators =
      indKeyList.filterMap (indEntry current.indicators previous.indicators) := by
  unfold buildDelta
  rcases hc : current.indicators with _ | ⟨e, l⟩
  · simp [List.filterMap_eq_nil_iff, indEntry_left_nil]
  · rcases hp : previous.indicators with _ | ⟨f, m⟩
    · simp [List.filterMap_eq_nil_iff, indEntry_right_nil]
    · simp [accumEntries_eq_filterMap]

/-- Same guard-redundancy for the citation-stats section. -/
theorem buildDelta_citations (current previous : Snapshot) (prev_date : PyStr) :
    (buildDelta current previous prev_date).citations =
      citeKeyList.filterMap (citeEntry current.citationStats previous.citationStats) := by
  unfold buildDelta
  rcases hc : current.citationStats with _ | ⟨e, l⟩
  · simp [List.filterMap_eq_nil_iff, citeEntry_left_nil]
  · rcases hp : previous.citationStats with _ | ⟨f, m⟩
    · simp [List.filterMap_eq_nil_iff, citeEntry_right_nil]
    · simp [accumEntries_eq_filterMap]

/-- In a list sorted by `≤`, the last element bounds every member. -/
theorem sorted_getLast?_max {l : List PyStr}
    (hs : l.Sorted (fun a b : PyStr => a ≤ b)) {d : PyStr}
    (hd : l.getLast? = some d) : ∀ x ∈ l, x ≤ d := by
  induction l with
  | nil => intro x hx; simp at hx
  | cons a t ih =>
      intro x hx
      cases t with
      | nil =>
          simp at hd hx
          subst hd; subst hx; exact le_refl _
      | cons b u =>
          rw [List.getLast?_cons_cons] at hd
          have hdm : d ∈ b :: u := by
            have := List.mem_getLast?_eq_getLast (l := b :: u) (x := d) hd
            rcases this with ⟨h, rfl⟩
            exact List.getLast_mem h
          rcases List.mem_cons.mp hx with rfl | hx
          · exact le_trans (List.rel_of_sorted_cons hs _ hdm) (le_refl _)
          · exact ih (List.sorted_cons.mp hs).2 hd x hx

/-- The main shape of `_compute_deltas` when a comparison date exists: the
chosen date is a key of the history, is not today, is lexicographically
greatest among the non-today keys, and the result is `buildDelta` against
the snapshot stored under it. -/
theorem compute_deltas_spec (current : Snapshot) (history : History) (today : PyStr)
    (hne : (history.map Prod.fst).filter (fun d => d ≠ today) ≠ []) :
    ∃ d previous,
      d ∈ history.map Prod.fst ∧ d ≠ today ∧
      (∀ k ∈ history.map Prod.fst, k ≠ today → k ≤ d) ∧
      alget history d = some previous ∧
      compute_deltas current history today = buildDelta current previous d := by
  set filtered := (history.map Prod.fst).filter (fun d => d ≠ today) with hfiltered
  set dates := List.insertionSort (fun a b => a ≤ b) filtered with hdates
  have hperm := List.perm_insertionSort (fun a b : PyStr => a ≤ b) filtered
  have hdne : dates ≠ [] := by
    intro h
    exact hne (List.eq_nil_of_length_eq_zero (by
      have := hperm.length_eq
      rw [← hdates, h] at this
      exact this.symm))
  have hlast := List.getLast?_eq_getLast_of_ne_nil hdne
  set d := dates.getLast hdne with hdd
  have hdmem : d ∈ dates := List.getLast_mem hdne
  have hdfil : d ∈ filtered := hperm.mem_iff.mp (hdates ▸ hdmem)
  have hdkeys : d ∈ history.map Prod.fst := List.mem_of_mem_filter hdfil
  have hdtoday : d ≠ today := by
    have := List.of_mem_filter hdfil
    simpa using this
  have hsorted : dates.Sorted (fun a b : PyStr => a ≤ b) :=
    List.sorted_insertionSort _ filtered
  have hmax : ∀ k ∈ history.map Prod.fst, k ≠ today → k ≤ d := by
    intro k hk hkt
    have hkf : k ∈ filtered := by
      rw [hfiltered]
      exact List.mem_filter.mpr ⟨hk, by simpa using hkt⟩
    exact sorted_getLast?_max hsorted hlast k (hperm.mem_iff.mpr hkf)
  obtain ⟨previous, hprev⟩ := alget_of_mem_keys hdkeys
  refine ⟨d, previous, hdkeys, hdtoday, hmax, hprev, ?_⟩
  have hhist : history.isEmpty = false := by
    cases history with
    | nil => simp [hfiltered] at hne
    | cons a t => rfl
  unfold compute_deltas
  rw [hhist]
  simp only [Bool.false_eq_true, if_false, ← hfiltered, ← hdates, hlast, hprev]

theorem tier1Hit_true {citing : List PyStr} {b : PyStr}
    (h1 : citing ≠ []) (h2 : b ≠ []) (h3 : b ∈ citing) :
    tier1Hit citing (some b) = true := by
  simp [tier1Hit, List.isEmpty_iff, h1, h2, h3]

/-- C1: when the citation index is non-empty, the paper's bibcode is
non-empty, and the bibcode is in the index, `classify_paper` returns tier 1
with reason "Cites your work" and no matched keywords, for every choice of
title, abstract and keyword lists — so tier-1 precedence is absolute. -/
theorem classify_paper_tier1_precedence (title abstract : PyStr)
    (tier2_keywords tier3_keywords citing_bibcodes : List PyStr) (b : PyStr)
    (h1 : citing_bibcodes ≠ []) (h2 : b ≠ []) (h3 : b ∈ citing_bibcodes) :
    classify_paper title abstract tier2_keywords tier3_keywords citing_bibcodes (some b) =
      { tier := some 1, reason := "Cites your work".data, matched_keywords := [] } := by
  simp [classify_paper, tier1Hit_true h1 h2 h3]

/-- Witness for C1: a paper whose bibcode is cited and whose title also
matches a tier-2 keyword is still classified tier 1. -/
theorem classify_paper_tier1_precedence_witness :
    (["2024arXiv1".data] : List PyStr) ≠ [] ∧ "2024arXiv1".data ≠ ([] : PyStr) ∧
    "2024arXiv1".data ∈ (["2024arXiv1".data] : List PyStr) ∧
    classify_paper "CMZ star formation".data "We study the CMZ.".data
      ["CMZ".data] ["prebiotic".data] ["2024arXiv1".data] (some "2024arXiv1".data) =
      { tier := some 1, reason := "Cites your work".data, matched_keywords := [] } :=
  ⟨by decide, by decide, by decide,
    classify_paper_tier1_precedence _ _ _ _ _ _ (by decide) (by decide) (by decide)⟩

/-- C5: with no tier-1 hit, if any tier-2 keyword occurs case-folded in the
search text (the lower-cased title and abstract joined by one space), the
result is tier 2 with reason "Core research topic" and the matched keywords
are exactly the matching tier-2 keywords, original case, in input order —
whatever the tier-3 keywords are. -/
theorem classify_paper_tier2 (title abstract : PyStr)
    (tier2_keywords tier3_keywords citing_bibcodes : List PyStr) (pb : Option PyStr)
    (hno1 : tier1Hit citing_bibcodes pb = false)
    (hm : ∃ kw ∈ tier2_keywords,
      containsSub (pyLower kw) (searchText title abstract) = true) :
    classify_paper title abstract tier2_keywords tier3_keywords citing_bibcodes pb =
      { tier := some 2, reason := "Core research topic".data,
        matched_keywords :=
          tier2_keywords.filter
            (fun kw => containsSub (pyLower kw) (searchText title abstract)) } := by
  have hfil :
      tier2_keywords.filter
        (fun kw => containsSub (pyLower kw) (searchText title abstract)) ≠ [] := by
    rcases hm with ⟨kw, hkw, hc⟩
    intro h
    have := List.filter_eq_nil_iff.mp h kw hkw
    simp [hc] at this
  simp [classify_paper, hno1, hfil]

/-- Witness for C5: the keyword "r f" matches only across the
title/abstract boundary, and a tier-3 keyword also matches, yet the result
is tier 2. -/
theorem classify_paper_tier2_witness :
    tier1Hit [] none = false ∧
    (∃ kw ∈ (["r f".data] : List PyStr),
      containsSub (pyLower kw) (searchText "StaR".data "Formation".data) = true) ∧
    classify_paper "StaR".data "Formation".data
      ["r f".data] ["formation".data] [] none =
      { tier := some 2, reason := "Core research topic".data,
        matched_keywords := ["r f".data] } :=
  ⟨by decide, ⟨"r f".data, by decide, by decide⟩,
    classify_paper_tier2 _ _ _ _ _ _ (by decide) ⟨"r f".data, by decide, by decide⟩⟩

/-- C7: classification is total.  When nothing matches — no tier-1 hit and
no tier-2 or tier-3 keyword occurs in the search text — the classifier
still returns a well-formed result: tier `none`, reason "No match", no
matched keywords.  In the batch form a missing title or abstract field
reads as the empty string rather than an error. -/
theorem classify_paper_no_match_total (title abstract : PyStr)
    (tier2_keywords tier3_keywords citing_bibcodes : List PyStr) (pb : Option PyStr)
    (hno1 : tier1Hit citing_bibcodes pb = false)
    (h2 : ∀ kw ∈ tier2_keywords,
      containsSub (pyLower kw) (searchText title abstract) = false)
    (h3 : ∀ kw ∈ tier3_keywords,
      containsSub (pyLower kw) (searchText title abstract) = false) :
    classify_paper title abstract tier2_keywords tier3_keywords citing_bibcodes pb =
      { tier := none, reason := "No match".data, matched_keywords := [] } ∧
    ∀ paper : Paper,
      (alget paper "title" = none → getStrD paper "title" = []) ∧
      (alget paper "abstract" = none → getStrD paper "abstract" = []) := by
  constructor
  · have hf2 :
        tier2_keywords.filter
          (fun kw => containsSub (pyLower kw) (searchText title abstract)) = [] :=
      List.filter_eq_nil_iff.mpr (by intro kw hkw; simp [h2 kw hkw])
    have hf3 :
        tier3_keywords.filter
          (fun kw => containsSub (pyLower kw) (searchText title abstract)) = [] :=
      List.filter_eq_nil_iff.mpr (by intro kw hkw; simp [h3 kw hkw])
    simp [classify_paper, hno1, hf2, hf3]
  · intro paper
    constructor <;> (intro h; simp [getStrD, h])

/-- Witness for C7: a document matching nothing is classified tier `none`
with reason "No match". -/
theorem classify_paper_no_match_total_witness :
    tier1Hit ["bibX".data] (some "bibY".data) = false ∧
    (∀ kw ∈ (["cmz".data] : List PyStr),
      containsSub (pyLower kw) (searchText "Unrelated".data "Generic".data) = false) ∧
    (∀ kw ∈ (["prebiotic".data] : List PyStr),
      containsSub (pyLower kw) (searchText "Unrelated".data "Generic".data) = false) ∧
    (classify_paper "Unrelated".data "Generic".data ["cmz".data] ["prebiotic".data]
        ["bibX".data] (some "bibY".data) =
      { tier := none, reason := "No match".data, matched_keywords := [] } ∧
    ∀ paper : Paper,
      (alget paper "title" = none → getStrD paper "title" = []) ∧
      (alget paper "abstract" = none → getStrD paper "abstract" = [])) :=
  ⟨by decide, by decide, by decide,
    classify_paper_no_match_total _ _ _ _ _ _ (by decide) (by decide) (by decide)⟩

theorem compute_deltas_empty_filter (current : Snapshot) (history : History)
    (today : PyStr)
    (h : (history.map Prod.fst).filter (fun d => d ≠ today) = []) :
    compute_deltas current history today = emptyDelta := by
  unfold compute_deltas
  cases history with
  | nil => rfl
  | cons a t =>
      rw [show ((a :: t : History).isEmpty) = false from rfl]
      simp only [Bool.false_eq_true, if_false, h]
      rfl

/-- C2: the first-ever run (empty history) produces an empty delta with no
comparison date; when every history key equals today the delta is empty as
well; otherwise the comparison snapshot is the one stored under the
lexicographically greatest key different from today — a future-dated key
can be chosen, a key equal to today never is. -/
theorem compute_deltas_comparison_date (current : Snapshot) (history : History)
    (today : PyStr) :
    (history = [] → compute_deltas current history today = emptyDelta) ∧
    ((∀ k ∈ history.map Prod.fst, k = today) →
      compute_deltas current history today = emptyDelta) ∧
    ((∃ k ∈ history.map Prod.fst, k ≠ today) →
      ∃ d previous,
        d ∈ history.map Prod.fst ∧ d ≠ today ∧
        (∀ k ∈ history.map Prod.fst, k ≠ today → k ≤ d) ∧
        alget history d = some previous ∧
        compute_deltas current history today = buildDelta current previous d) := by
  refine ⟨?_, ?_, ?_⟩
  · rintro rfl; rfl
  · intro h
    apply compute_deltas_empty_filter
    apply List.filter_eq_nil_iff.mpr
    intro k hk
    simpa using h k hk
  · rintro ⟨k, hk, hkt⟩
    apply compute_deltas_spec
    intro hfil
    have hm : k ∈ (history.map Prod.fst).filter (fun d => d ≠ today) :=
      List.mem_filter.mpr ⟨hk, by simpa using hkt⟩
    rw [hfil] at hm
    simp at hm

/-- Witness for C2: on the P8 history (2026-02-20, 2026-02-24 and a
same-day 2026-02-26 entry, run on 2026-02-26) a comparison date exists, and
the theorem yields it; a direct evaluation confirms it is 2026-02-24. -/
theorem compute_deltas_comparison_date_witness :
    (∃ k ∈ exHistP8.map Prod.fst, k ≠ "2026-02-26".data) ∧
    (∃ d previous,
      d ∈ exHistP8.map Prod.fst ∧ d ≠ "2026-02-26".data ∧
      (∀ k ∈ exHistP8.map Prod.fst, k ≠ "2026-02-26".data → k ≤ d) ∧
      alget exHistP8 d = some previous ∧
      compute_deltas exSnap39 exHistP8 "2026-02-26".data =
        buildDelta exSnap39 previous d) ∧
    (compute_deltas exSnap39 exHistP8 "2026-02-26".data).compared_to =
      some "2026-02-24".data :=
  ⟨⟨"2026-02-24".data, by decide, by decide⟩,
   (compute_deltas_comparison_date exSnap39 exHistP8 "2026-02-26".data).2.2
     ⟨"2026-02-24".data, by decide, by decide⟩,
   by decide⟩

/-- C3: the indicator section of a delta iterates exactly the fixed key
list h, g, m, i10, i100, tori, riq, read10 (other keys are ignored), keeps
a key only when it is numeric in both snapshots and the difference is
non-zero, and rounds the difference to two decimals; the citation section
iterates exactly the two citation-count keys and keeps non-zero
differences unrounded. -/
theorem delta_fixed_keys (current previous : Snapshot) (prev_date : PyStr) :
    (buildDelta current previous prev_date).indicators =
      (["h", "g", "m", "i10", "i100", "tori", "riq", "read10"] :
          List String).filterMap (fun k =>
        match alget current.indicators k, alget previous.indicators k with
        | some c, some p =>
            if c - p ≠ 0 then
              some (k, { current := c, previous := p, delta := round2 (c - p) })
            else none
        | _, _ => none) ∧
    (buildDelta current previous prev_date).citations =
      (["total number of citations", "number of citing papers"] :
          List String).filterMap (fun k =>
        match alget current.citationStats k, alget previous.citationStats k with
        | some c, some p =>
            if c - p ≠ 0 then
              some (k, { current := c, previous := p, delta := c - p })
            else none
        | _, _ => none) :=
  ⟨buildDelta_indicators current previous prev_date,
   buildDelta_citations current previous prev_date⟩

theorem metricsDelta_eta {m : MetricsDelta} {d : PyStr}
    (h0 : m.compared_to = some d) (h1 : m.indicators = [])
    (h2 : m.citations = []) (h3 : m.papers = none) :
    m = { compared_to := some d, indicators := [], citations := [],
          papers := none } := by
  cases m
  simp_all

/-- C4: whenever the history holds a key different from today, the result
carries `compared_to` with the chosen previous date — even if every per-key
difference is zero, in which case the result is exactly the record with
`compared_to` and no section entries. -/
theorem compute_deltas_compared_to_present (current : Snapshot)
    (history : History) (today : PyStr)
    (h : ∃ k ∈ history.map Prod.fst, k ≠ today) :
    ∃ d, d ∈ history.map Prod.fst ∧ d ≠ today ∧
      (compute_deltas current history today).compared_to = some d ∧
      ((compute_deltas current history today).indicators = [] ∧
       (compute_deltas current history today).citations = [] ∧
       (compute_deltas current history today).papers = none →
        compute_deltas current history today =
          { compared_to := some d, indicators := [], citations := [],
            papers := none }) := by
  have hfil : (history.map Prod.fst).filter (fun d => d ≠ today) ≠ [] := by
    rcases h with ⟨k, hk, hkt⟩
    intro hf
    have hm : k ∈ (history.map Prod.fst).filter (fun d => d ≠ today) :=
      List.mem_filter.mpr ⟨hk, by simpa using hkt⟩
    rw [hf] at hm
    simp at hm
  obtain ⟨d, prev, hk, hnt, hmax, hget, heq⟩ :=
    compute_deltas_spec current history today hfil
  have hcd : (compute_deltas current history today).compared_to = some d := by
    rw [heq]
    rfl
  refine ⟨d, hk, hnt, hcd, ?_⟩
  rintro ⟨hi, hc, hp⟩
  exact metricsDelta_eta hcd hi hc hp

/-- Witness for C4: comparing a snapshot against an identical one yields
exactly `{compared_to: "2026-02-24"}` with no section keys. -/
theorem compute_deltas_compared_to_present_witness :
    (∃ k ∈ exHistSame.map Prod.fst, k ≠ "2026-02-26".data) ∧
    (∃ d, d ∈ exHistSame.map Prod.fst ∧ d ≠ "2026-02-26".data ∧
      (compute_deltas exSnap38 exHistSame "2026-02-26".data).compared_to = some d ∧
      ((compute_deltas exSnap38 exHistSame "2026-02-26".data).indicators = [] ∧
       (compute_deltas exSnap38 exHistSame "2026-02-26".data).citations = [] ∧
       (compute_deltas exSnap38 exHistSame "2026-02-26".data).papers = none →
        compute_deltas exSnap38 exHistSame "2026-02-26".data =
          { compared_to := some d, indicators := [], citations := [],
            papers := none })) ∧
    compute_deltas exSnap38 exHistSame "2026-02-26".data =
      { compared_to := some "2026-02-24".data, indicators := [], citations := [],
        papers := none } :=
  ⟨⟨"2026-02-24".data, by decide, by decide⟩,
   compute_deltas_compared_to_present exSnap38 exHistSame "2026-02-26".data
     ⟨"2026-02-24".data, by decide, by decide⟩,
   by decide⟩

/-- C6: `classify_papers` classifies each paper with its own bibcode, drops
tier-`None` papers from all buckets, places each kept paper in exactly the
bucket of its tier (preserving input order) enriched with the
classification entries, and on key collision the lookup of an enriched
paper prefers the classification value. -/
theorem classify_papers_grouping (papers : List Paper) (t2 t3 cb : List PyStr) :
    classify_papers papers t2 t3 cb =
      [(1, bucketFor t2 t3 cb 1 papers),
       (2, bucketFor t2 t3 cb 2 papers),
       (3, bucketFor t2 t3 cb 3 papers)] ∧
    ∀ (paper : Paper) (r : TierResult) (k : String),
      alget (enrich paper r) k =
        dictOverride (alget (resultEntries r) k) (alget paper k) :=
  ⟨classify_papers_eq papers t2 t3 cb,
   fun paper r k => alget_append (resultEntries r) paper k⟩

/-- C10: the grouping returned by `classify_papers` always has exactly the
keys 1, 2, 3, in that order, even on an empty input batch. -/
theorem classify_papers_always_three_buckets (papers : List Paper)
    (t2 t3 cb : List PyStr) :
    (classify_papers papers t2 t3 cb).map Prod.fst = [1, 2, 3] := by
  rw [classify_papers_eq]
  rfl

/-- C9: `_compute_deltas` run as a state transformer leaves the current
snapshot and the history exactly as it found them, and its result is the
pure function of the inputs — same inputs, same delta. -/
theorem compute_deltas_pure (today : PyStr) (s : DeltaState) :
    (computeDeltasSt today).run s = (compute_deltas s.1 s.2 today, s) := by
  cases s with
  | mk current history =>
      simp only [computeDeltasSt, compute_deltas, StateT.run, bind, StateT.bind, get,
        getThe, MonadStateOf.get, StateT.get, pure, StateT.pure]
      split
      · rfl
      · split
        · rename_i heq
          simp only [heq]
          rfl
        · rename_i d heq
          simp only [heq]
          split
          · rename_i hq
            simp only [hq]
            rfl
          · rename_i prev hq
            simp only [hq]
            rfl

theorem filter_match_congr (text : PyStr) (l lB : List PyStr)
    (h : lB.map pyLower = l.map pyLower) :
    (lB.filter (fun kw => containsSub (pyLower kw) text)).map pyLower =
      (l.filter (fun kw => containsSub (pyLower kw) text)).map pyLower ∧
    (lB.filter (fun kw => containsSub (pyLower kw) text) = [] ↔
      l.filter (fun kw => containsSub (pyLower kw) text) = []) := by
  induction l generalizing lB with
  | nil =>
      have : lB = [] := by simpa using h
      subst this
      simp
  | cons a l ih =>
      cases lB with
      | nil => simp at h
      | cons aB lBt =>
          simp only [List.map_cons, List.cons.injEq] at h
          obtain ⟨ha, ht⟩ := h
          obtain ⟨ihm, ihe⟩ := ih lBt ht
          by_cases hc : containsSub (pyLower a) text = true
          · have hcB : containsSub (pyLower aB) text = true := by rw [ha]; exact hc
            simp [List.filter_cons, hc, hcB, ihm, ha]
          · have hc2 : containsSub (pyLower a) text = false := by
              simpa using hc
            have hcB : containsSub (pyLower aB) text = false := by rw [ha]; exact hc2
            simp [List.filter_cons, hc2, hcB, ihm, ihe]

theorem searchText_congr {title abstract titleB abstractB : PyStr}
    (ht : pyLower titleB = pyLower title) (ha : pyLower abstractB = pyLower abstract) :
    searchText titleB abstractB = searchText title abstract := by
  unfold searchText
  unfold pyLower at ht ha ⊢
  simp only [List.map_append, ht, ha]

/-- C8: keyword matching is case-insensitive — replacing the keywords or the
title/abstract text by case variants (equal after lower-casing) leaves the
tier, the reason and the lower-cased matched keywords unchanged, and the
matched keywords are always reported in the original case in which they
were supplied. -/
theorem classify_paper_case_insensitive
    (title abstract titleB abstractB : PyStr)
    (t2 t2B t3 t3B citing : List PyStr) (pb : Option PyStr)
    (ht : pyLower titleB = pyLower title) (ha : pyLower abstractB = pyLower abstract)
    (h2 : t2B.map pyLower = t2.map pyLower) (h3 : t3B.map pyLower = t3.map pyLower) :
    (classify_paper titleB abstractB t2B t3B citing pb).tier =
      (classify_paper title abstract t2 t3 citing pb).tier ∧
    (classify_paper titleB abstractB t2B t3B citing pb).reason =
      (classify_paper title abstract t2 t3 citing pb).reason ∧
    (classify_paper titleB abstractB t2B t3B citing pb).matched_keywords.map pyLower =
      (classify_paper title abstract t2 t3 citing pb).matched_keywords.map pyLower ∧
    (∀ kw ∈ (classify_paper titleB abstractB t2B t3B citing pb).matched_keywords,
      kw ∈ t2B ∨ kw ∈ t3B) := by
  have htext := searchText_congr ht ha
  obtain ⟨m2, e2⟩ := filter_match_congr (searchText title abstract) t2 t2B h2
  obtain ⟨m3, e3⟩ := filter_match_congr (searchText title abstract) t3 t3B h3
  by_cases h1 : tier1Hit citing pb
  · simp [classify_paper, h1]
  · have h1f : tier1Hit citing pb = false := by simpa using h1
    by_cases hm2 : t2.filter (fun kw => containsSub (pyLower kw)
        (searchText title abstract)) = []
    · have hm2B : t2B.filter (fun kw => containsSub (pyLower kw)
          (searchText title abstract)) = [] := e2.mpr hm2
      by_cases hm3 : t3.filter (fun kw => containsSub (pyLower kw)
          (searchText title abstract)) = []
      · have hm3B : t3B.filter (fun kw => containsSub (pyLower kw)
            (searchText title abstract)) = [] := e3.mpr hm3
        simp [classify_paper, h1f, htext, hm2, hm2B, hm3, hm3B]
      · have hm3B : ¬ t3B.filter (fun kw => containsSub (pyLower kw)
            (searchText title abstract)) = [] := fun hh => hm3 (e3.mp hh)
        refine ⟨?_, ?_, ?_, ?_⟩
        · simp [classify_paper, h1f, htext, hm2, hm2B, hm3, hm3B]
        · simp [classify_paper, h1f, htext, hm2, hm2B, hm3, hm3B]
        · simp [classify_paper, h1f, htext, hm2, hm2B, hm3, hm3B, m3]
        · have hres : (classify_paper titleB abstractB t2B t3B citing pb).matched_keywords
              = t3B.filter (fun kw => containsSub (pyLower kw) (searchText title abstract)) := by
            simp [classify_paper, h1f, htext, hm2B, hm3B]
          rw [hres]
          intro kw hkw
          exact Or.inr (List.mem_of_mem_filter hkw)
    · have hm2B : ¬ t2B.filter (fun kw => containsSub (pyLower kw)
          (searchText title abstract)) = [] := fun hh => hm2 (e2.mp hh)
      refine ⟨?_, ?_, ?_, ?_⟩
      · simp [classify_paper, h1f, htext, hm2, hm2B]
      · simp [classify_paper, h1f, htext, hm2, hm2B]
      · simp [classify_paper, h1f, htext, hm2, hm2B, m2]
      · have hres : (classify_paper titleB abstractB t2B t3B citing pb).matched_keywords
              = t2B.filter (fun kw => containsSub (pyLower kw) (searchText title abstract)) := by
          simp [classify_paper, h1f, htext, hm2B]
        rw [hres]
        intro kw hkw
        exact Or.inl (List.mem_of_mem_filter hkw)

/-- Witness for C8: keyword "cmz" against text "CMZ Star" behaves exactly
like keyword "CMZ" against text "cmz star". -/
theorem classify_paper_case_insensitive_witness :
    pyLower "cmz Star".data = pyLower "CMZ Star".data ∧
    pyLower "gas".data = pyLower "GAS".data ∧
    ([ "CMZ".data ] : List PyStr).map pyLower = ([ "cmz".data ] : List PyStr).map pyLower ∧
    ([ "x".data ] : List PyStr).map pyLower = ([ "x".data ] : List PyStr).map pyLower ∧
    ((classify_paper "cmz Star".data "gas".data ["CMZ".data] ["x".data] [] none).tier =
      (classify_paper "CMZ Star".data "GAS".data ["cmz".data] ["x".data] [] none).tier ∧
    (classify_paper "cmz Star".data "gas".data ["CMZ".data] ["x".data] [] none).reason =
      (classify_paper "CMZ Star".data "GAS".data ["cmz".data] ["x".data] [] none).reason ∧
    (classify_paper "cmz Star".data "gas".data ["CMZ".data] ["x".data] []
        none).matched_keywords.map pyLower =
      (classify_paper "CMZ Star".data "GAS".data ["cmz".data] ["x".data] []
        none).matched_keywords.map pyLower ∧
    (∀ kw ∈ (classify_paper "cmz Star".data "gas".data ["CMZ".data] ["x".data] []
        none).matched_keywords,
      kw ∈ (["CMZ".data] : List PyStr) ∨ kw ∈ (["x".data] : List PyStr))) :=
  ⟨by decide, by decide, by decide, by decide,
   classify_paper_case_insensitive "CMZ Star".data "GAS".data "cmz Star".data "gas".data
     ["cmz".data] ["CMZ".data] ["x".data] ["x".data] [] none
     (by decide) (by decide) (by decide) (by decide)⟩
